import Mathlib

/-!
# Key refresh pipeline of `keys/openidprovider.go`

A shallow embedding of `cachingOpenIdProviderLoader` (`LoadKey`, `refreshKeys`,
`loadConfiguration`) together with the collaborators it calls.

Conventions of the embedding

* A Go `interface{}` holding key material is `Option Material`; `none` is the nil interface.
* A Go `error` is `Option String`; `none` is the nil error, `some msg` carries `Error()`.
* A Go `*http.Response` is `Option Response`; `none` is the nil pointer.
* The mutable cache behind `kl.keyCache` is passed explicitly and returned.
* The logger is a list of entries, oldest first.
* The network and the JSON decoder are parameters, collected in `World`.
-/

namespace keys

/-! ## Collaborators declared outside `openidprovider.go` -/

/-- Modelled from the spec: the `Cache` type behind `kl.keyCache` is declared in another file
of the package. Section 3 describes it as a mapping from id to the most recently seen key
material, with at most one entry addressable per id and no eviction. It is kept as an
association list with one pair per id, in order of first insertion. -/
structure Cache (Material : Type) where
  entries : List (String × Option Material)
  deriving DecidableEq, Repr

/-- Modelled from the spec: `NewCache()` is declared with `Cache`; section 6 says the cache is
rebuilt from scratch, so a new cache holds no id. -/
def NewCache {Material : Type} : Cache Material := ⟨[]⟩

/-- Replace the pair stored under `id`, or append one when `id` is not yet stored. -/
def setEntry {Material : Type} (id : String) (key : Option Material) :
    List (String × Option Material) → List (String × Option Material)
  | [] => [(id, key)]
  | (i, v) :: rest => if i = id then (id, key) :: rest else (i, v) :: setEntry id key rest

/-- Modelled from the spec: `Cache.Get` is declared with `Cache`. Section 4.1 gives
`Get(id) -> KeyRecord | absent`; on a Go map of interfaces an absent id reads as nil. -/
def Cache.Get {Material : Type} (c : Cache Material) (id : String) : Option Material :=
  match c.entries.lookup id with
  | some v => v
  | none => none

/-- Modelled from the spec: `Cache.Set` is declared with `Cache`. Section 4.1 gives
`Set(id, record) -> previous KeyRecord | absent`: the pair is the cache after the write and
the value read under `id` before it. -/
def Cache.Set {Material : Type} (c : Cache Material) (id : String) (key : Option Material) :
    Cache Material × Option Material :=
  (⟨setEntry id key c.entries⟩, c.Get id)

/-- The id has an entry in the cache (whatever the material stored under it). -/
def Cache.Has {Material : Type} (c : Cache Material) (id : String) : Bool :=
  (c.entries.lookup id).isSome

/-- The fields of `configuration` that `openidprovider.go` reads. -/
structure configuration where
  JwksUri : String
  deriving DecidableEq, Repr

/-- The fields of `jsonWebKey` that `openidprovider.go` reads. -/
structure jsonWebKey (Material : Type) where
  KeyId : String
  Key : Option Material
  deriving DecidableEq, Repr

/-- The field of `jsonWebKeySet` that `openidprovider.go` reads. -/
structure jsonWebKeySet (Material : Type) where
  Keys : List (jsonWebKey Material)
  deriving DecidableEq, Repr

/-- What `http.Get` hands back when it returns a nil error: the status code and the bytes
that `ioutil.ReadAll(resp.Body)` yields (its error is dropped by the code). -/
structure Response where
  status : Nat
  body : String
  deriving DecidableEq, Repr

/-- The outside world seen by one refresh cycle: `http.Get` per URL, and `json.Unmarshal`
into each of the two target types. -/
structure World (Material : Type) where
  httpGet : String → Except String Response
  unmarshalConfiguration : String → Except String configuration
  unmarshalJwks : String → Except String (jsonWebKeySet Material)

/-- Levels of the logger used by the package. -/
inductive Level where
  | info
  | warning
  | error
  deriving DecidableEq, Repr

/-- One call of the logger. -/
structure LogEntry where
  level : Level
  msg : String
  deriving DecidableEq, Repr

/-! ## Circuit breaker (`hystrix.Do`) -/

/-- Modelled from the spec: the state of a named breaker, section 3 and 4.2 (the library
`hystrix-go` is not part of the source tree). `closed n` has seen `n` consecutive
failures; `opened t` fails fast while the clock is before `t`. -/
inductive CircuitState where
  | closed (failures : Nat)
  | opened (expiry : Nat)
  | halfOpen
  deriving DecidableEq, Repr

/-- Modelled from the spec: configured threshold and open-state timeout, section 6. -/
structure BreakerConfig where
  threshold : Nat
  openTimeout : Nat
  deriving DecidableEq, Repr

/-- The message of the error a breaker returns while open. -/
def circuitOpenMsg : String := "hystrix: circuit open"

/-- Modelled from the spec: `hystrix.Do(name, run, nil)`, section 4.2. The wrapped call `run`
acts on the variables it captures (`σ`) and returns an error. While closed the call passes
through, and failures beyond the threshold trip the breaker; while open the call fails with a
circuit-open error and `run` is not invoked, until the timeout elapses; a half-open probe
closes the breaker on success and reopens it on failure. With a nil fallback the error of
`run` is the error of `Do`. The timeout and the concurrency limit of the library are left
out: `run` always finishes. -/
def hystrixDo {σ : Type} (cfg : BreakerConfig) (now : Nat) (st : CircuitState)
    (run : σ → σ × Option String) (s : σ) : CircuitState × σ × Option String :=
  let probe : CircuitState × σ × Option String :=
    match run s with
    | (s1, none) => (CircuitState.closed 0, s1, none)
    | (s1, some e) => (CircuitState.opened (now + cfg.openTimeout), s1, some e)
  match st with
  | CircuitState.closed n =>
    match run s with
    | (s1, none) => (CircuitState.closed 0, s1, none)
    | (s1, some e) =>
      if cfg.threshold < n + 1 then (CircuitState.opened (now + cfg.openTimeout), s1, some e)
      else (CircuitState.closed (n + 1), s1, some e)
  | CircuitState.opened expiry =>
    if now < expiry then (st, s, some circuitOpenMsg) else probe
  | CircuitState.halfOpen => probe

/-! ## `openidprovider.go` -/

/-- The struct `cachingOpenIdProviderLoader`. -/
structure cachingOpenIdProviderLoader (Material : Type) where
  url : String
  keyCache : Cache Material

/-- Function `NewCachingOpenIdProviderLoader`: the loader it builds. The call of `schedule`
that starts the periodic refresh is not part of the value. -/
def NewCachingOpenIdProviderLoader {Material : Type} (u : String) :
    cachingOpenIdProviderLoader Material :=
  ⟨u, NewCache⟩

/-- How a Go call ends: it returns a value, or it panics. -/
inductive GoResult (α : Type) where
  | returned (v : α)
  | panicked (msg : String)
  deriving DecidableEq, Repr

/-- The runtime error of dereferencing a nil pointer. -/
def nilDeref : String := "runtime error: invalid memory address or nil pointer dereference"

/-- Method `LoadKey`: the key read from the cache, with a not-found error when it is nil. -/
def LoadKey {Material : Type} (kl : cachingOpenIdProviderLoader Material) (id : String) :
    Option Material × Option String :=
  let key := kl.keyCache.Get id
  match key with
  | none => (key, some ("Key '" ++ id ++ "' not found"))
  | some _ => (key, none)

/-- The variables `resp` and `err` declared at the top of `loadConfiguration` and captured by
the function passed to `hystrix.Do`. -/
structure Locals where
  resp : Option Response
  err : Option String
  deriving DecidableEq, Repr

/-- The function literal passed to `hystrix.Do`: it assigns the two results of
`http.Get(kl.url)` to the captured variables and returns nil. -/
def loadConfigurationRun {Material : Type} (w : World Material) (url : String)
    (_l : Locals) : Locals × Option String :=
  match w.httpGet url with
  | Except.ok r => (⟨some r, none⟩, none)
  | Except.error e => (⟨none, some e⟩, none)

/-- Method `loadConfiguration`, with the breaker state threaded through. The result of
`hystrix.Do` is assigned to `err`, replacing what the wrapped function stored there; then
`defer resp.Body.Close()` reads through `resp`. -/
def loadConfiguration {Material : Type} (w : World Material) (cfg : BreakerConfig) (now : Nat)
    (st : CircuitState) (kl : cachingOpenIdProviderLoader Material) :
    CircuitState × GoResult (Option configuration × Option String) :=
  match hystrixDo cfg now st (loadConfigurationRun w kl.url) (⟨none, none⟩ : Locals) with
  | (st1, l1, doErr) =>
    let l2 : Locals := ⟨l1.resp, doErr⟩
    match l2.err with
    | some e => (st1, GoResult.returned (none, some e))
    | none =>
      match l2.resp with
      | none => (st1, GoResult.panicked nilDeref)
      | some resp =>
        match w.unmarshalConfiguration resp.body with
        | Except.error e => (st1, GoResult.returned (none, some e))
        | Except.ok c => (st1, GoResult.returned (some c, none))

/-- The log line for an id seen for the first time. -/
def newKeyEvent (id : String) : LogEntry :=
  ⟨Level.info, "Received new public key '" ++ id ++ "'"⟩

/-- The log line for an id whose material changed. -/
def rotationEvent (id : String) : LogEntry :=
  ⟨Level.warning, "Received new public key for existing key '" ++ id ++ "'"⟩

/-- Function `reflect.DeepEqual` on two key interfaces: value equality of the material. -/
def deepEqual {Material : Type} [DecidableEq Material] (a b : Option Material) : Bool :=
  decide (a = b)

/-- The body of the `for _, k := range jwks.Keys` loop: the cache after it and what it logs. -/
def refreshKey {Material : Type} [DecidableEq Material] (c : Cache Material)
    (k : jsonWebKey Material) : Cache Material × List LogEntry :=
  let old := c.Get k.KeyId
  let c1 := (c.Set k.KeyId k.Key).1
  match old with
  | none => (c1, [newKeyEvent k.KeyId])
  | some o => if !deepEqual (some o) k.Key then (c1, [rotationEvent k.KeyId]) else (c1, [])

/-- The whole `for _, k := range jwks.Keys` loop. -/
def refreshLoop {Material : Type} [DecidableEq Material] :
    Cache Material → List (jsonWebKey Material) → Cache Material × List LogEntry
  | c, [] => (c, [])
  | c, k :: ks =>
    let r := refreshKey c k
    let rest := refreshLoop r.1 ks
    (rest.1, r.2 ++ rest.2)

/-- Where a run of `refreshKeys` ends. -/
inductive CycleEnd where
  | configFailed
  | jwksGetFailed
  | jwksParseFailed
  | completed
  | panicked
  deriving DecidableEq, Repr

/-- The state after a run of `refreshKeys`. -/
structure RefreshResult (Material : Type) where
  breaker : CircuitState
  cache : Cache Material
  log : List LogEntry
  ended : CycleEnd

/-- Method `refreshKeys`. -/
def refreshKeys {Material : Type} [DecidableEq Material] (w : World Material)
    (cfg : BreakerConfig) (now : Nat) (st : CircuitState)
    (kl : cachingOpenIdProviderLoader Material) : RefreshResult Material :=
  let log0 : List LogEntry := [⟨Level.info, "Refreshing keys.."⟩]
  match loadConfiguration w cfg now st kl with
  | (st1, GoResult.panicked _) => ⟨st1, kl.keyCache, log0, CycleEnd.panicked⟩
  | (st1, GoResult.returned (_, some _)) =>
    ⟨st1, kl.keyCache, log0 ++ [⟨Level.error, "Failed to get configuration from " ++ kl.url⟩],
      CycleEnd.configFailed⟩
  -- a nil configuration with a nil error: `c.JwksUri` dereferences nil
  | (st1, GoResult.returned (none, none)) => ⟨st1, kl.keyCache, log0, CycleEnd.panicked⟩
  | (st1, GoResult.returned (some c, none)) =>
    match w.httpGet c.JwksUri with
    | Except.error _ =>
      ⟨st1, kl.keyCache, log0 ++ [⟨Level.error, "Failed to get JWKS from " ++ c.JwksUri⟩],
        CycleEnd.jwksGetFailed⟩
    | Except.ok resp =>
      match w.unmarshalJwks resp.body with
      | Except.error e =>
        ⟨st1, kl.keyCache, log0 ++ [⟨Level.error, "Failed to parse JWKS: " ++ e⟩],
          CycleEnd.jwksParseFailed⟩
      | Except.ok jwks =>
        let r := refreshLoop kl.keyCache jwks.Keys
        ⟨st1, r.1, log0 ++ r.2, CycleEnd.completed⟩


/-! ## Predicates used to state the properties -/

/-- The first line every cycle logs. -/
def refreshingLine : LogEntry := ⟨Level.info, "Refreshing keys.."⟩

/-- The cycle reaches its update loop with the document `jwks`: `loadConfiguration` returns a
configuration and a nil error, the GET of its `JwksUri` succeeds, and the body parses. -/
def Fetched {Material : Type} (w : World Material) (cfg : BreakerConfig) (now : Nat)
    (st : CircuitState) (kl : cachingOpenIdProviderLoader Material)
    (jwks : jsonWebKeySet Material) : Prop :=
  ∃ c resp, (loadConfiguration w cfg now st kl).2 = GoResult.returned (some c, none) ∧
    w.httpGet c.JwksUri = Except.ok resp ∧ w.unmarshalJwks resp.body = Except.ok jwks

/-- The report that section 4.4 step 4 of the spec prescribes for one entry, read off the
value previously cached under its id: absent gives the new-key line, present and equal to the
new material gives nothing, present and different gives the rotation line. -/
def entryReport {Material : Type} [DecidableEq Material] (old : Option Material)
    (k : jsonWebKey Material) : List LogEntry :=
  match old with
  | none => [newKeyEvent k.KeyId]
  | some o => if some o = k.Key then [] else [rotationEvent k.KeyId]

/-- The value cached under `id` once the entries `done` of a document have been processed, in
the spec's terms: the material of the last of them carrying `id`, and what the cache read
before the cycle when none of them does. -/
def previousValue {Material : Type} (c : Cache Material) (done : List (jsonWebKey Material))
    (id : String) : Option Material :=
  match done.reverse.find? (fun q => decide (q.KeyId = id)) with
  | some q => q.Key
  | none => c.Get id

/-- The reports that the spec prescribes for the entries `todo`, in document order, after the
entries `done` of the same document. -/
def cycleReports {Material : Type} [DecidableEq Material] (c : Cache Material) :
    List (jsonWebKey Material) → List (jsonWebKey Material) → List LogEntry
  | _, [] => []
  | done, k :: todo =>
    entryReport (previousValue c done k.KeyId) k ++ cycleReports c (done ++ [k]) todo

/-! ## Example data -/

def discoveryUrl : String := "https://p/.well-known/openid-configuration"

def jwksUrl : String := "https://p/keys"

/-- A provider that answers the discovery GET with the given status and a body naming
`jwksUrl`, and the key-set GET with a body that parses to `doc`. -/
def providerWorld (status : Nat) (doc : jsonWebKeySet Nat) : World Nat where
  httpGet := fun u =>
    if u = discoveryUrl then Except.ok ⟨status, "discovery"⟩
    else if u = jwksUrl then Except.ok ⟨200, "jwks"⟩
    else Except.error "no such host"
  unmarshalConfiguration := fun b =>
    if b = "discovery" then Except.ok ⟨jwksUrl⟩ else Except.error "unexpected end of JSON input"
  unmarshalJwks := fun b =>
    if b = "jwks" then Except.ok doc else Except.error "unexpected end of JSON input"

/-- A provider that cannot be reached at all. -/
def unreachableWorld : World Nat where
  httpGet := fun _ => Except.error "connection refused"
  unmarshalConfiguration := fun _ => Except.error "unexpected end of JSON input"
  unmarshalJwks := fun _ => Except.error "unexpected end of JSON input"

/-- A provider whose discovery document is fine but whose key-set endpoint is down. -/
def jwksDownWorld : World Nat where
  httpGet := fun u =>
    if u = discoveryUrl then Except.ok ⟨200, "discovery"⟩ else Except.error "connection refused"
  unmarshalConfiguration := fun b =>
    if b = "discovery" then Except.ok ⟨jwksUrl⟩ else Except.error "unexpected end of JSON input"
  unmarshalJwks := fun _ => Except.error "unexpected end of JSON input"

/-- A provider whose key-set body is not JSON. -/
def jwksGarbledWorld : World Nat where
  httpGet := fun u =>
    if u = discoveryUrl then Except.ok ⟨200, "discovery"⟩
    else if u = jwksUrl then Except.ok ⟨200, "<html>"⟩
    else Except.error "no such host"
  unmarshalConfiguration := fun b =>
    if b = "discovery" then Except.ok ⟨jwksUrl⟩ else Except.error "unexpected end of JSON input"
  unmarshalJwks := fun _ => Except.error "invalid character looking for beginning of value"

/-- A loader as `NewCachingOpenIdProviderLoader` builds it, before any cycle has run. -/
def freshLoader : cachingOpenIdProviderLoader Nat := NewCachingOpenIdProviderLoader discoveryUrl

/-- A loader whose cache already holds key `Z` with material 9. -/
def warmLoader : cachingOpenIdProviderLoader Nat := ⟨discoveryUrl, ⟨[("Z", some 9)]⟩⟩

/-- A loader whose cache holds key `A` with material 1. -/
def oneKeyLoader : cachingOpenIdProviderLoader Nat := ⟨discoveryUrl, ⟨[("A", some 1)]⟩⟩

/-- A loader whose cache holds an entry for `A` with nil material. -/
def nilLoader : cachingOpenIdProviderLoader Nat := ⟨discoveryUrl, ⟨[("A", none)]⟩⟩

def breakerConfig : BreakerConfig := ⟨2, 5⟩

/-- Run `loadConfiguration` `n` times in a row against the same world, one clock tick apart,
threading the breaker state; the results are listed oldest first. -/
def loadConfigurationRepeat {Material : Type} (w : World Material) (cfg : BreakerConfig)
    (kl : cachingOpenIdProviderLoader Material) :
    Nat → Nat → CircuitState →
      CircuitState × List (GoResult (Option configuration × Option String))
  | 0, _, st => (st, [])
  | n + 1, now, st =>
    let r := loadConfiguration w cfg now st kl
    let rest := loadConfigurationRepeat w cfg kl n (now + 1) r.1
    (rest.1, r.2 :: rest.2)

/-- The breaker lets a call through at time `now`. -/
def letsThrough (now : Nat) : CircuitState → Bool
  | CircuitState.opened expiry => decide (expiry ≤ now)
  | _ => true

/-! ## Cache lemmas -/

section CacheLemmas
variable {Material : Type}

theorem lookup_setEntry_same (id : String) (key : Option Material)
    (l : List (String × Option Material)) : (setEntry id key l).lookup id = some key := by
  induction l with
  | nil => simp [setEntry, List.lookup]
  | cons p rest ih =>
    obtain ⟨i, v⟩ := p
    by_cases h : i = id
    · simp [setEntry, h, List.lookup]
    · have h2 : (id == i) = false := by simpa using fun e => h e.symm
      simp [setEntry, h, List.lookup, h2, ih]

theorem lookup_setEntry_other (id other : String) (key : Option Material)
    (l : List (String × Option Material)) (hne : other ≠ id) :
    (setEntry id key l).lookup other = l.lookup other := by
  induction l with
  | nil =>
    have h2 : (other == id) = false := by simpa using hne
    simp [setEntry, List.lookup, h2]
  | cons p rest ih =>
    obtain ⟨i, v⟩ := p
    by_cases h : i = id
    · subst h
      have h2 : (other == i) = false := by simpa using hne
      simp [setEntry, List.lookup, h2]
    · by_cases h3 : other = i
      · subst h3
        simp [setEntry, h, List.lookup]
      · have h4 : (other == i) = false := by simpa using h3
        simp [setEntry, h, List.lookup, h4, ih]

theorem Get_Set_same (c : Cache Material) (id : String) (key : Option Material) :
    (c.Set id key).1.Get id = key := by
  simp [Cache.Set, Cache.Get, lookup_setEntry_same]

theorem Get_Set_other (c : Cache Material) (id other : String) (key : Option Material)
    (hne : other ≠ id) : (c.Set id key).1.Get other = c.Get other := by
  simp [Cache.Set, Cache.Get, lookup_setEntry_other id other key c.entries hne]

theorem Has_Set_same (c : Cache Material) (id : String) (key : Option Material) :
    (c.Set id key).1.Has id = true := by
  simp [Cache.Set, Cache.Has, lookup_setEntry_same]

theorem Has_Set_other (c : Cache Material) (id other : String) (key : Option Material)
    (hne : other ≠ id) : (c.Set id key).1.Has other = c.Has other := by
  simp [Cache.Set, Cache.Has, lookup_setEntry_other id other key c.entries hne]

theorem Has_Set_mono (c : Cache Material) (id other : String) (key : Option Material)
    (h : c.Has other = true) : (c.Set id key).1.Has other = true := by
  by_cases hne : other = id
  · subst hne; exact Has_Set_same c other key
  · rw [Has_Set_other c id other key hne]; exact h

theorem Get_of_not_Has (c : Cache Material) (id : String) (h : c.Has id = false) :
    c.Get id = none := by
  unfold Cache.Has at h
  unfold Cache.Get
  cases hl : c.entries.lookup id with
  | none => rfl
  | some v => rw [hl] at h; simp at h

theorem Get_NewCache (id : String) : (NewCache : Cache Material).Get id = none := rfl

/-- A cache built from a new one by any sequence of `Set` calls reads nil under an id that
was never passed to `Set`. -/
theorem Get_never_set (ops : List (String × Option Material)) (id : String)
    (h : ∀ p ∈ ops, p.1 ≠ id) :
    (ops.foldl (fun c p => (c.Set p.1 p.2).1) (NewCache : Cache Material)).Get id = none := by
  suffices H : ∀ (c : Cache Material), c.Get id = none →
      (ops.foldl (fun c p => (c.Set p.1 p.2).1) c).Get id = none from H _ (Get_NewCache id)
  induction ops with
  | nil => intro c hc; simpa using hc
  | cons p rest ih =>
    intro c hc
    simp only [List.foldl_cons]
    apply ih (fun q hq => h q (List.mem_cons_of_mem _ hq))
    rw [Get_Set_other c p.1 id p.2 (fun e => h p (List.mem_cons_self _ _) e.symm)]
    exact hc

end CacheLemmas

/-! ## Log lines -/

theorem newKeyEvent_inj {a b : String} (h : newKeyEvent a = newKeyEvent b) : a = b := by
  simp only [newKeyEvent, LogEntry.mk.injEq, true_and] at h
  have h1 := congrArg String.data h
  simp only [String.data_append, List.append_assoc] at h1
  have h2 := List.append_cancel_left h1
  have h3 := List.append_cancel_right h2
  exact String.ext h3

theorem rotationEvent_inj {a b : String} (h : rotationEvent a = rotationEvent b) : a = b := by
  simp only [rotationEvent, LogEntry.mk.injEq, true_and] at h
  have h1 := congrArg String.data h
  simp only [String.data_append, List.append_assoc] at h1
  have h2 := List.append_cancel_left h1
  have h3 := List.append_cancel_right h2
  exact String.ext h3

theorem newKeyEvent_ne_rotationEvent (a b : String) : newKeyEvent a ≠ rotationEvent b := by
  intro h
  have := congrArg LogEntry.level h
  simp [newKeyEvent, rotationEvent] at this


/-! ## The update loop -/

section LoopLemmas
variable {Material : Type} [DecidableEq Material]

theorem refreshKey_cache (c : Cache Material) (k : jsonWebKey Material) :
    (refreshKey c k).1 = (c.Set k.KeyId k.Key).1 := by
  unfold refreshKey
  cases c.Get k.KeyId with
  | none => rfl
  | some o => by_cases h : deepEqual (some o) k.Key = true <;> simp [h]

theorem refreshKey_log_absent (c : Cache Material) (k : jsonWebKey Material)
    (h : c.Get k.KeyId = none) : (refreshKey c k).2 = [newKeyEvent k.KeyId] := by
  simp [refreshKey, h]

theorem refreshKey_log_equal (c : Cache Material) (k : jsonWebKey Material) (o : Material)
    (h : c.Get k.KeyId = some o) (he : k.Key = some o) : (refreshKey c k).2 = [] := by
  simp [refreshKey, h, he, deepEqual]

theorem refreshKey_log_changed (c : Cache Material) (k : jsonWebKey Material) (o : Material)
    (h : c.Get k.KeyId = some o) (he : k.Key ≠ some o) :
    (refreshKey c k).2 = [rotationEvent k.KeyId] := by
  have h2 : ¬ (some o = k.Key) := fun e => he e.symm
  simp [refreshKey, h, deepEqual, h2]

theorem refreshKey_log_mem (c : Cache Material) (k : jsonWebKey Material) (e : LogEntry)
    (he : e ∈ (refreshKey c k).2) : e = newKeyEvent k.KeyId ∨ e = rotationEvent k.KeyId := by
  cases hg : c.Get k.KeyId with
  | none =>
    rw [refreshKey_log_absent c k hg] at he
    exact Or.inl (by simpa using he)
  | some o =>
    by_cases hk : k.Key = some o
    · rw [refreshKey_log_equal c k o hg hk] at he
      simp at he
    · rw [refreshKey_log_changed c k o hg hk] at he
      exact Or.inr (by simpa using he)

theorem refreshKey_count_other (c : Cache Material) (k : jsonWebKey Material) (K : String)
    (hne : k.KeyId ≠ K) :
    (refreshKey c k).2.count (rotationEvent K) = 0 ∧
      (refreshKey c k).2.count (newKeyEvent K) = 0 := by
  constructor
  · rw [List.count_eq_zero]
    intro hmem
    rcases refreshKey_log_mem c k _ hmem with h | h
    · exact newKeyEvent_ne_rotationEvent _ _ h.symm
    · exact hne (rotationEvent_inj h).symm
  · rw [List.count_eq_zero]
    intro hmem
    rcases refreshKey_log_mem c k _ hmem with h | h
    · exact hne (newKeyEvent_inj h).symm
    · exact newKeyEvent_ne_rotationEvent _ _ h

theorem refreshLoop_nil (c : Cache Material) : refreshLoop c [] = (c, []) := rfl

theorem refreshLoop_cons (c : Cache Material) (k : jsonWebKey Material)
    (ks : List (jsonWebKey Material)) :
    refreshLoop c (k :: ks) =
      ((refreshLoop (refreshKey c k).1 ks).1,
        (refreshKey c k).2 ++ (refreshLoop (refreshKey c k).1 ks).2) := rfl

theorem refreshLoop_append (c : Cache Material) (a b : List (jsonWebKey Material)) :
    refreshLoop c (a ++ b) =
      ((refreshLoop (refreshLoop c a).1 b).1,
        (refreshLoop c a).2 ++ (refreshLoop (refreshLoop c a).1 b).2) := by
  induction a generalizing c with
  | nil => simp [refreshLoop_nil]
  | cons k ks ih =>
    simp only [List.cons_append, refreshLoop_cons, ih, List.append_assoc]

/-- Ids that the document does not carry read the same after the loop. -/
theorem refreshLoop_Get_absent (c : Cache Material) (ks : List (jsonWebKey Material))
    (K : String) (h : ∀ k ∈ ks, k.KeyId ≠ K) : (refreshLoop c ks).1.Get K = c.Get K := by
  induction ks generalizing c with
  | nil => rfl
  | cons k ks ih =>
    rw [refreshLoop_cons]
    simp only
    rw [ih _ (fun q hq => h q (List.mem_cons_of_mem _ hq)), refreshKey_cache,
      Get_Set_other c k.KeyId K k.Key (fun e => h k (List.mem_cons_self _ _) e.symm)]

/-- Ids that the document does not carry keep their entry, present or not. -/
theorem refreshLoop_Has_absent (c : Cache Material) (ks : List (jsonWebKey Material))
    (K : String) (h : ∀ k ∈ ks, k.KeyId ≠ K) : (refreshLoop c ks).1.Has K = c.Has K := by
  induction ks generalizing c with
  | nil => rfl
  | cons k ks ih =>
    rw [refreshLoop_cons]
    simp only
    rw [ih _ (fun q hq => h q (List.mem_cons_of_mem _ hq)), refreshKey_cache,
      Has_Set_other c k.KeyId K k.Key (fun e => h k (List.mem_cons_self _ _) e.symm)]

/-- The loop never drops an entry. -/
theorem refreshLoop_Has_mono (c : Cache Material) (ks : List (jsonWebKey Material))
    (K : String) (h : c.Has K = true) : (refreshLoop c ks).1.Has K = true := by
  induction ks generalizing c with
  | nil => exact h
  | cons k ks ih =>
    rw [refreshLoop_cons]
    simp only
    apply ih
    rw [refreshKey_cache]
    exact Has_Set_mono c k.KeyId K k.Key h

/-- The loop leaves under an id the material of the last entry carrying that id. -/
theorem refreshLoop_Get_last (c : Cache Material) (pre post : List (jsonWebKey Material))
    (k : jsonWebKey Material) (h : ∀ q ∈ post, q.KeyId ≠ k.KeyId) :
    (refreshLoop c (pre ++ k :: post)).1.Get k.KeyId = k.Key := by
  rw [refreshLoop_append]
  simp only
  rw [refreshLoop_cons]
  simp only
  rw [refreshLoop_Get_absent _ post k.KeyId h, refreshKey_cache, Get_Set_same]

theorem refreshLoop_count_other (c : Cache Material) (ks : List (jsonWebKey Material))
    (K : String) (h : ∀ k ∈ ks, k.KeyId ≠ K) :
    (refreshLoop c ks).2.count (rotationEvent K) = 0 ∧
      (refreshLoop c ks).2.count (newKeyEvent K) = 0 := by
  induction ks generalizing c with
  | nil => simp [refreshLoop_nil]
  | cons k ks ih =>
    rw [refreshLoop_cons]
    simp only [List.count_append]
    have h1 := refreshKey_count_other c k K (h k (List.mem_cons_self _ _))
    have h2 := ih (refreshKey c k).1 (fun q hq => h q (List.mem_cons_of_mem _ hq))
    omega

/-- When the cache reads `key` under `K` and every entry of the document under `K` carries
`key`, the loop logs no rotation for `K` and the cache still reads `key`. -/
theorem refreshLoop_unchanged (c : Cache Material) (ks : List (jsonWebKey Material))
    (K : String) (key : Option Material) (hc : c.Get K = key)
    (h : ∀ k ∈ ks, k.KeyId = K → k.Key = key) :
    (refreshLoop c ks).2.count (rotationEvent K) = 0 ∧ (refreshLoop c ks).1.Get K = key := by
  induction ks generalizing c with
  | nil => simp [refreshLoop_nil, hc]
  | cons k ks ih =>
    rw [refreshLoop_cons]
    simp only [List.count_append]
    have hget : (refreshKey c k).1.Get K = key := by
      rw [refreshKey_cache]
      by_cases hk : k.KeyId = K
      · rw [← hk, Get_Set_same]; exact h k (List.mem_cons_self _ _) hk
      · rw [Get_Set_other c k.KeyId K k.Key (fun e => hk e.symm)]; exact hc
    have h2 := ih (refreshKey c k).1 hget (fun q hq => h q (List.mem_cons_of_mem _ hq))
    have h1 : (refreshKey c k).2.count (rotationEvent K) = 0 := by
      by_cases hk : k.KeyId = K
      · have hkey := h k (List.mem_cons_self _ _) hk
        cases hkk : key with
        | none =>
          rw [refreshKey_log_absent c k (by rw [hk, hc, hkk])]
          rw [List.count_eq_zero]
          simpa using (newKeyEvent_ne_rotationEvent _ _).symm
        | some o =>
          rw [refreshKey_log_equal c k o (by rw [hk, hc, hkk]) (by rw [hkey, hkk])]
          rfl
      · exact (refreshKey_count_other c k K hk).1
    exact ⟨by omega, h2.2⟩

/-- When the cache reads non-nil `m` under `K` and every entry under `K` carries `m`, the loop
logs no new-key line for `K`. -/
theorem refreshLoop_unchanged_new (c : Cache Material) (ks : List (jsonWebKey Material))
    (K : String) (m : Material) (hc : c.Get K = some m)
    (h : ∀ k ∈ ks, k.KeyId = K → k.Key = some m) :
    (refreshLoop c ks).2.count (newKeyEvent K) = 0 := by
  induction ks generalizing c with
  | nil => simp [refreshLoop_nil]
  | cons k ks ih =>
    rw [refreshLoop_cons]
    simp only [List.count_append]
    have hget : (refreshKey c k).1.Get K = some m := by
      rw [refreshKey_cache]
      by_cases hk : k.KeyId = K
      · rw [← hk, Get_Set_same]; exact h k (List.mem_cons_self _ _) hk
      · rw [Get_Set_other c k.KeyId K k.Key (fun e => hk e.symm)]; exact hc
    have h2 := ih (refreshKey c k).1 hget (fun q hq => h q (List.mem_cons_of_mem _ hq))
    have h1 : (refreshKey c k).2.count (newKeyEvent K) = 0 := by
      by_cases hk : k.KeyId = K
      · rw [refreshKey_log_equal c k m (by rw [hk, hc]) (h k (List.mem_cons_self _ _) hk)]
        rfl
      · exact (refreshKey_count_other c k K hk).2
    omega

/-- First sight: the cache reads nil under `K`, the document carries `K`, always with the
non-nil `m`. One new-key line, no rotation, and the cache reads `m` afterwards. -/
theorem refreshLoop_first_sight (c : Cache Material) (ks : List (jsonWebKey Material))
    (K : String) (m : Material) (hc : c.Get K = none)
    (hex : ∃ k ∈ ks, k.KeyId = K) (h : ∀ k ∈ ks, k.KeyId = K → k.Key = some m) :
    (refreshLoop c ks).2.count (newKeyEvent K) = 1 ∧
      (refreshLoop c ks).2.count (rotationEvent K) = 0 ∧
      (refreshLoop c ks).1.Get K = some m := by
  induction ks generalizing c with
  | nil => simp at hex
  | cons k ks ih =>
    rw [refreshLoop_cons]
    simp only [List.count_append]
    have htl : ∀ q ∈ ks, q.KeyId = K → q.Key = some m :=
      fun q hq => h q (List.mem_cons_of_mem _ hq)
    by_cases hk : k.KeyId = K
    · have hkey := h k (List.mem_cons_self _ _) hk
      have hget : (refreshKey c k).1.Get K = some m := by
        rw [refreshKey_cache, ← hk, Get_Set_same]; exact hkey
      have hlog := refreshKey_log_absent c k (by rw [hk, hc])
      have hu := refreshLoop_unchanged (refreshKey c k).1 ks K (some m) hget htl
      have hn := refreshLoop_unchanged_new (refreshKey c k).1 ks K m hget htl
      rw [hlog, hk]
      have hr : [newKeyEvent K].count (rotationEvent K) = 0 := by
        rw [List.count_eq_zero]
        simpa using (newKeyEvent_ne_rotationEvent _ _).symm
      have hnn : [newKeyEvent K].count (newKeyEvent K) = 1 := by simp
      exact ⟨by omega, by omega, hu.2⟩
    · have hget : (refreshKey c k).1.Get K = none := by
        rw [refreshKey_cache, Get_Set_other c k.KeyId K k.Key (fun e => hk e.symm)]; exact hc
      have hex2 : ∃ q ∈ ks, q.KeyId = K := by
        obtain ⟨q, hq, hqk⟩ := hex
        rcases List.mem_cons.mp hq with e | e
        · exact absurd (e ▸ hqk) hk
        · exact ⟨q, e, hqk⟩
      have h2 := ih (refreshKey c k).1 hget hex2 htl
      have h1 := refreshKey_count_other c k K hk
      exact ⟨by omega, by omega, h2.2.2⟩

/-- Rotation: the cache reads non-nil `m` under `K`, the document carries `K`, always with a
non-nil `m2` different from `m`. One rotation line, no new-key line, and the cache reads `m2`
afterwards. -/
theorem refreshLoop_rotation (c : Cache Material) (ks : List (jsonWebKey Material))
    (K : String) (m m2 : Material) (hne : m2 ≠ m) (hc : c.Get K = some m)
    (hex : ∃ k ∈ ks, k.KeyId = K) (h : ∀ k ∈ ks, k.KeyId = K → k.Key = some m2) :
    (refreshLoop c ks).2.count (rotationEvent K) = 1 ∧
      (refreshLoop c ks).2.count (newKeyEvent K) = 0 ∧
      (refreshLoop c ks).1.Get K = some m2 := by
  induction ks generalizing c with
  | nil => simp at hex
  | cons k ks ih =>
    rw [refreshLoop_cons]
    simp only [List.count_append]
    have htl : ∀ q ∈ ks, q.KeyId = K → q.Key = some m2 :=
      fun q hq => h q (List.mem_cons_of_mem _ hq)
    by_cases hk : k.KeyId = K
    · have hkey := h k (List.mem_cons_self _ _) hk
      have hget : (refreshKey c k).1.Get K = some m2 := by
        rw [refreshKey_cache, ← hk, Get_Set_same]; exact hkey
      have hlog := refreshKey_log_changed c k m (by rw [hk, hc])
        (by rw [hkey]; exact fun e => hne (Option.some.inj e))
      have hu := refreshLoop_unchanged (refreshKey c k).1 ks K (some m2) hget htl
      have hn := refreshLoop_unchanged_new (refreshKey c k).1 ks K m2 hget htl
      rw [hlog, hk]
      have hr : [rotationEvent K].count (newKeyEvent K) = 0 := by
        rw [List.count_eq_zero]
        simpa using newKeyEvent_ne_rotationEvent _ _
      have hnn : [rotationEvent K].count (rotationEvent K) = 1 := by simp
      exact ⟨by omega, by omega, hu.2⟩
    · have hget : (refreshKey c k).1.Get K = some m := by
        rw [refreshKey_cache, Get_Set_other c k.KeyId K k.Key (fun e => hk e.symm)]; exact hc
      have hex2 : ∃ q ∈ ks, q.KeyId = K := by
        obtain ⟨q, hq, hqk⟩ := hex
        rcases List.mem_cons.mp hq with e | e
        · exact absurd (e ▸ hqk) hk
        · exact ⟨q, e, hqk⟩
      have h2 := ih (refreshKey c k).1 hget hex2 htl
      have h1 := refreshKey_count_other c k K hk
      exact ⟨by omega, by omega, h2.2.2⟩

/-- A nil reading under `K` makes the loop log a new-key line for `K` whenever the document
carries `K`. -/
theorem refreshLoop_nil_reported (c : Cache Material) (ks : List (jsonWebKey Material))
    (K : String) (hc : c.Get K = none) (hex : ∃ k ∈ ks, k.KeyId = K) :
    newKeyEvent K ∈ (refreshLoop c ks).2 := by
  induction ks generalizing c with
  | nil => simp at hex
  | cons k ks ih =>
    rw [refreshLoop_cons]
    simp only [List.mem_append]
    by_cases hk : k.KeyId = K
    · left
      rw [refreshKey_log_absent c k (by rw [hk, hc]), hk]
      simp
    · right
      have hget : (refreshKey c k).1.Get K = none := by
        rw [refreshKey_cache, Get_Set_other c k.KeyId K k.Key (fun e => hk e.symm)]; exact hc
      have hex2 : ∃ q ∈ ks, q.KeyId = K := by
        obtain ⟨q, hq, hqk⟩ := hex
        rcases List.mem_cons.mp hq with e | e
        · exact absurd (e ▸ hqk) hk
        · exact ⟨q, e, hqk⟩
      exact ih (refreshKey c k).1 hget hex2

end LoopLemmas


/-! ## Whole refresh cycles -/

section FetchLemmas
variable {Material : Type}

/-- The document a cycle fetches is determined by the world and the state it starts from. -/
theorem Fetched_unique (w : World Material) (cfg : BreakerConfig) (now : Nat)
    (st : CircuitState) (kl : cachingOpenIdProviderLoader Material)
    (d1 d2 : jsonWebKeySet Material) (h1 : Fetched w cfg now st kl d1)
    (h2 : Fetched w cfg now st kl d2) : d1 = d2 := by
  obtain ⟨c1, r1, a1, b1, e1⟩ := h1
  obtain ⟨c2, r2, a2, b2, e2⟩ := h2
  rw [a1] at a2
  have hc : c1 = c2 := by simpa using a2
  subst hc
  rw [b1] at b2
  have hr : r1 = r2 := by simpa using b2
  subst hr
  rw [e1] at e2
  simpa using e2

theorem previousValue_nil (c : Cache Material) (id : String) :
    previousValue c [] id = c.Get id := rfl

theorem previousValue_snoc (c : Cache Material) (done : List (jsonWebKey Material))
    (k : jsonWebKey Material) (id : String) :
    previousValue c (done ++ [k]) id =
      if k.KeyId = id then k.Key else previousValue c done id := by
  unfold previousValue
  rw [List.reverse_append, List.reverse_singleton, List.singleton_append, List.find?_cons]
  by_cases h : k.KeyId = id <;> simp [h]

end FetchLemmas

section CycleLemmas
variable {Material : Type} [DecidableEq Material]

theorem refreshingLine_ne_newKeyEvent (K : String) : refreshingLine ≠ newKeyEvent K := by
  intro h
  have h1 := congrArg (fun e => e.msg.length) h
  simp only [refreshingLine, newKeyEvent, String.length_append] at h1
  have e1 : ("Refreshing keys..".length) = 17 := by decide
  have e2 : ("Received new public key '".length) = 25 := by decide
  omega

theorem refreshingLine_ne_rotationEvent (K : String) : refreshingLine ≠ rotationEvent K := by
  intro h
  have := congrArg LogEntry.level h
  simp [refreshingLine, rotationEvent] at this

theorem refreshKeys_of_Fetched (w : World Material) (cfg : BreakerConfig) (now : Nat)
    (st : CircuitState) (kl : cachingOpenIdProviderLoader Material)
    (jwks : jsonWebKeySet Material) (h : Fetched w cfg now st kl jwks) :
    (refreshKeys w cfg now st kl).cache = (refreshLoop kl.keyCache jwks.Keys).1 ∧
      (refreshKeys w cfg now st kl).log = refreshingLine :: (refreshLoop kl.keyCache jwks.Keys).2 ∧
      (refreshKeys w cfg now st kl).ended = CycleEnd.completed := by
  obtain ⟨c, resp, hc, hg, hp⟩ := h
  rcases hl : loadConfiguration w cfg now st kl with ⟨st1, r⟩
  rw [hl] at hc
  simp only at hc
  subst hc
  simp [refreshKeys, hl, hg, hp, refreshingLine]

/-- A cycle either leaves the cache as it was or is a completed cycle over some document. -/
theorem refreshKeys_cache_cases (w : World Material) (cfg : BreakerConfig) (now : Nat)
    (st : CircuitState) (kl : cachingOpenIdProviderLoader Material) :
    ((refreshKeys w cfg now st kl).cache = kl.keyCache ∧
        (refreshKeys w cfg now st kl).ended ≠ CycleEnd.completed) ∨
      ∃ jwks, Fetched w cfg now st kl jwks := by
  rcases hl : loadConfiguration w cfg now st kl with ⟨st1, r⟩
  cases r with
  | panicked msg => left; simp [refreshKeys, hl]
  | returned v =>
    obtain ⟨oc, oe⟩ := v
    cases oe with
    | some e => left; simp [refreshKeys, hl]
    | none =>
      cases oc with
      | none => left; simp [refreshKeys, hl]
      | some c =>
        cases hg : w.httpGet c.JwksUri with
        | error e => left; simp [refreshKeys, hl, hg]
        | ok resp =>
          cases hp : w.unmarshalJwks resp.body with
          | error e => left; simp [refreshKeys, hl, hg, hp]
          | ok jwks =>
            right
            exact ⟨jwks, c, resp, by rw [hl], hg, hp⟩

theorem count_refreshingLine_cons (K : String) (l : List LogEntry) :
    (refreshingLine :: l).count (rotationEvent K) = l.count (rotationEvent K) ∧
      (refreshingLine :: l).count (newKeyEvent K) = l.count (newKeyEvent K) := by
  constructor
  · exact List.count_cons_of_ne (refreshingLine_ne_rotationEvent K).symm l
  · exact List.count_cons_of_ne (refreshingLine_ne_newKeyEvent K).symm l

/-- The cache read under an id after the loop has run over `done` is the previous value in
the spec's terms. -/
theorem refreshLoop_Get_previousValue (c : Cache Material)
    (done : List (jsonWebKey Material)) (id : String) :
    (refreshLoop c done).1.Get id = previousValue c done id := by
  induction done using List.reverseRecOn with
  | nil => rfl
  | append_singleton done k ih =>
    rw [refreshLoop_append, previousValue_snoc]
    simp only [refreshLoop_cons, refreshLoop_nil, refreshKey_cache]
    by_cases h : k.KeyId = id
    · rw [if_pos h, ← h, Get_Set_same]
    · rw [if_neg h, Get_Set_other _ k.KeyId id k.Key (fun e => h e.symm), ih]

/-- The loop body logs what the spec prescribes for the value read under the entry's id. -/
theorem refreshKey_log_entryReport (c : Cache Material) (k : jsonWebKey Material) :
    (refreshKey c k).2 = entryReport (c.Get k.KeyId) k := by
  unfold refreshKey entryReport
  cases c.Get k.KeyId with
  | none => rfl
  | some o => by_cases h : some o = k.Key <;> simp [deepEqual, h]

theorem refreshLoop_log_cycleReports (c : Cache Material)
    (done todo : List (jsonWebKey Material)) :
    (refreshLoop (refreshLoop c done).1 todo).2 = cycleReports c done todo := by
  induction todo generalizing done with
  | nil => rfl
  | cons k todo ih =>
    rw [refreshLoop_cons]
    simp only [cycleReports]
    rw [refreshKey_log_entryReport, refreshLoop_Get_previousValue]
    have hstep : (refreshKey (refreshLoop c done).1 k).1 = (refreshLoop c (done ++ [k])).1 := by
      rw [refreshLoop_append]
      simp only [refreshLoop_cons, refreshLoop_nil]
    rw [hstep, ih]

theorem cycleReports_append (c : Cache Material) (done a b : List (jsonWebKey Material)) :
    cycleReports c done (a ++ b) = cycleReports c done a ++ cycleReports c (done ++ a) b := by
  induction a generalizing done with
  | nil => simp [cycleReports]
  | cons k a ih =>
    show entryReport (previousValue c done k.KeyId) k ++ cycleReports c (done ++ [k]) (a ++ b) =
      (entryReport (previousValue c done k.KeyId) k ++ cycleReports c (done ++ [k]) a) ++
        cycleReports c (done ++ k :: a) b
    rw [ih, List.append_assoc, List.append_assoc, List.singleton_append]

/-- A key read before the loop is still read after it when the document carries the id, if at
all, with non-nil material only. -/
theorem refreshLoop_Get_stays (c : Cache Material) (ks : List (jsonWebKey Material))
    (id : String) (hc : c.Get id ≠ none) (h : ∀ q ∈ ks, q.KeyId = id → q.Key ≠ none) :
    (refreshLoop c ks).1.Get id ≠ none := by
  rw [refreshLoop_Get_previousValue]
  unfold previousValue
  cases hfind : ks.reverse.find? (fun q => decide (q.KeyId = id)) with
  | none => exact hc
  | some q =>
    have hp := List.find?_some hfind
    have hm := List.mem_of_find?_eq_some hfind
    exact h q (List.mem_reverse.mp hm) (by simpa using hp)

end CycleLemmas


/-! ## `loadConfiguration` -/

section ConfigLemmas
variable {Material : Type}

/-- While the breaker is open, `loadConfiguration` returns the circuit-open error. -/
theorem loadConfiguration_circuit_open (w : World Material) (cfg : BreakerConfig)
    (now expiry : Nat) (kl : cachingOpenIdProviderLoader Material) (h : now < expiry) :
    loadConfiguration w cfg now (CircuitState.opened expiry) kl =
      (CircuitState.opened expiry, GoResult.returned (none, some circuitOpenMsg)) := by
  simp [loadConfiguration, hystrixDo, h]

/-- When the GET is let through and fails, the breaker records a success and the deferred
`resp.Body.Close()` dereferences nil. -/
theorem loadConfiguration_get_error (w : World Material) (cfg : BreakerConfig)
    (now : Nat) (st : CircuitState) (kl : cachingOpenIdProviderLoader Material) (e : String)
    (hst : letsThrough now st = true) (h : w.httpGet kl.url = Except.error e) :
    loadConfiguration w cfg now st kl = (CircuitState.closed 0, GoResult.panicked nilDeref) := by
  cases st with
  | closed n => simp [loadConfiguration, hystrixDo, loadConfigurationRun, h]
  | halfOpen => simp [loadConfiguration, hystrixDo, loadConfigurationRun, h]
  | opened t =>
    have ht : ¬ now < t := by simpa [letsThrough] using hst
    simp [loadConfiguration, hystrixDo, loadConfigurationRun, h, ht]

/-- When the GET is let through and answers, the result is decided by the body alone. -/
theorem loadConfiguration_response (w : World Material) (cfg : BreakerConfig)
    (now : Nat) (st : CircuitState) (kl : cachingOpenIdProviderLoader Material)
    (resp : Response) (hst : letsThrough now st = true)
    (h : w.httpGet kl.url = Except.ok resp) :
    loadConfiguration w cfg now st kl =
      (CircuitState.closed 0,
        match w.unmarshalConfiguration resp.body with
        | Except.error e => GoResult.returned (none, some e)
        | Except.ok c => GoResult.returned (some c, none)) := by
  cases st with
  | closed n =>
    simp only [loadConfiguration, hystrixDo, loadConfigurationRun, h]
    cases w.unmarshalConfiguration resp.body <;> rfl
  | halfOpen =>
    simp only [loadConfiguration, hystrixDo, loadConfigurationRun, h]
    cases w.unmarshalConfiguration resp.body <;> rfl
  | opened t =>
    have ht : ¬ now < t := by simpa [letsThrough] using hst
    simp only [loadConfiguration, hystrixDo, loadConfigurationRun, h, ht, if_false]
    cases w.unmarshalConfiguration resp.body <;> rfl

/-- In the breaker model a failing wrapped call beyond the threshold opens the breaker. -/
theorem hystrixDo_failure_trips {σ : Type} (cfg : BreakerConfig) (now n : Nat)
    (run : σ → σ × Option String) (s s1 : σ) (e : String) (hrun : run s = (s1, some e))
    (h : cfg.threshold < n + 1) :
    hystrixDo cfg now (CircuitState.closed n) run s =
      (CircuitState.opened (now + cfg.openTimeout), s1, some e) := by
  simp [hystrixDo, hrun, h]

/-- In the breaker model an open breaker fails fast and leaves the captured variables as
they were: the wrapped call is not made. -/
theorem hystrixDo_open_fails_fast {σ : Type} (cfg : BreakerConfig) (now expiry : Nat)
    (run : σ → σ × Option String) (s : σ) (h : now < expiry) :
    hystrixDo cfg now (CircuitState.opened expiry) run s =
      (CircuitState.opened expiry, s, some circuitOpenMsg) := by
  simp [hystrixDo, h]

/-- However often the GET fails, the breaker of `loadConfiguration` stays closed. -/
theorem loadConfigurationRepeat_get_error (w : World Material) (cfg : BreakerConfig)
    (kl : cachingOpenIdProviderLoader Material) (e : String)
    (h : w.httpGet kl.url = Except.error e) (n now : Nat) :
    loadConfigurationRepeat w cfg kl n now (CircuitState.closed 0) =
      (CircuitState.closed 0, List.replicate n (GoResult.panicked nilDeref)) := by
  induction n generalizing now with
  | zero => rfl
  | succ n ih =>
    simp only [loadConfigurationRepeat,
      loadConfiguration_get_error w cfg now (CircuitState.closed 0) kl e rfl h, ih,
      List.replicate_succ]

end ConfigLemmas


/-! ## Claims -/

section Claims

/-- C1: for every loader state and every id under which the cache reads absent (in
particular every id never passed to `Set`), `LoadKey` returns no key material together with
the non-nil error whose message is `Key '<id>' not found`. -/
theorem LoadKey_not_found {Material : Type} (kl : cachingOpenIdProviderLoader Material)
    (id : String)
    (h : kl.keyCache.Get id = none) :
    LoadKey kl id = (none, some ("Key '" ++ id ++ "' not found")) := by
  simp [LoadKey, h]

theorem LoadKey_not_found_witness :
    (⟨[("Z", some 9)]⟩ : Cache Nat).Get "B" = none ∧
      LoadKey warmLoader "B" = (none, some "Key 'B' not found") :=
  ⟨by decide, LoadKey_not_found warmLoader "B" (by decide)⟩

/-- C2, as stated, fails: the document carries `(A, 1)` and the cycle completes, yet
`LoadKey` does not return material 1, because a later entry of the same document carries `A`
with material 2. -/
theorem duplicate_id_last_entry_wins :
    (⟨"A", some 1⟩ : jsonWebKey Nat) ∈ [⟨"A", some 1⟩, ⟨"A", some 2⟩] ∧
      (refreshKeys (providerWorld 200 ⟨[⟨"A", some 1⟩, ⟨"A", some 2⟩]⟩) breakerConfig 0
        (CircuitState.closed 0) freshLoader).ended = CycleEnd.completed ∧
      LoadKey ⟨discoveryUrl,
        (refreshKeys (providerWorld 200 ⟨[⟨"A", some 1⟩, ⟨"A", some 2⟩]⟩) breakerConfig 0
          (CircuitState.closed 0) freshLoader).cache⟩ "A" = (some 2, none) ∧
      LoadKey ⟨discoveryUrl,
        (refreshKeys (providerWorld 200 ⟨[⟨"A", some 1⟩, ⟨"A", some 2⟩]⟩) breakerConfig 0
          (CircuitState.closed 0) freshLoader).cache⟩ "A" ≠ (some 1, none) := by
  decide

/-- C2, amended: after a cycle that fetches and parses a document and runs its update loop,
`LoadKey K` returns `M` with a nil error whenever `(K, M)` is the last entry of the document
under id `K` and `M` is non-nil; and an id that the document does not carry and under which
the cache read absent before still returns not-found. -/
theorem LoadKey_after_refresh {Material : Type} [DecidableEq Material]
    (w : World Material) (cfg : BreakerConfig) (now : Nat)
    (st : CircuitState) (kl : cachingOpenIdProviderLoader Material)
    (jwks : jsonWebKeySet Material) (pre post : List (jsonWebKey Material)) (K : String)
    (M : Material) (hf : Fetched w cfg now st kl jwks)
    (hdoc : jwks.Keys = pre ++ ⟨K, some M⟩ :: post) (hlast : ∀ q ∈ post, q.KeyId ≠ K) :
    LoadKey ⟨kl.url, (refreshKeys w cfg now st kl).cache⟩ K = (some M, none) ∧
      ∀ B : String, (∀ q ∈ jwks.Keys, q.KeyId ≠ B) → kl.keyCache.Get B = none →
        LoadKey ⟨kl.url, (refreshKeys w cfg now st kl).cache⟩ B =
          (none, some ("Key '" ++ B ++ "' not found")) := by
  have hr := (refreshKeys_of_Fetched w cfg now st kl jwks hf).1
  constructor
  · have hg := refreshLoop_Get_last kl.keyCache pre post ⟨K, some M⟩ hlast
    simp only at hg
    simp [LoadKey, hr, hdoc, hg]
  · intro B hB hnone
    have hg := refreshLoop_Get_absent kl.keyCache jwks.Keys B hB
    simp [LoadKey, hr, hg, hnone]

theorem LoadKey_after_refresh_witness :
    LoadKey ⟨discoveryUrl,
        (refreshKeys (providerWorld 200 ⟨[⟨"A", some 1⟩]⟩) breakerConfig 0
          (CircuitState.closed 0) freshLoader).cache⟩ "A" = (some 1, none) ∧
      LoadKey ⟨discoveryUrl,
        (refreshKeys (providerWorld 200 ⟨[⟨"A", some 1⟩]⟩) breakerConfig 0
          (CircuitState.closed 0) freshLoader).cache⟩ "B" = (none, some "Key 'B' not found") :=
  have h := LoadKey_after_refresh (providerWorld 200 ⟨[⟨"A", some 1⟩]⟩) breakerConfig 0
    (CircuitState.closed 0) freshLoader ⟨[⟨"A", some 1⟩]⟩ [] [] "A" 1
    ⟨⟨jwksUrl⟩, ⟨200, "jwks"⟩, by decide, rfl, rfl⟩ rfl (by simp)
  ⟨h.1, h.2 "B" (by decide) (by decide)⟩

/-- C3, as stated, fails: key `A` is absent, a first cycle processes `(A, 1)`, and a later
cycle processes a document containing `(A, 2)`; because that document carries `A` a second
time with material 1, the later cycle logs two rotation lines for `A` and `LoadKey` returns
material 1 afterwards. -/
theorem conflicting_entries_rotate_twice :
    freshLoader.keyCache.Get "A" = none ∧
      (refreshKeys (providerWorld 200 ⟨[⟨"A", some 1⟩]⟩) breakerConfig 0
        (CircuitState.closed 0) freshLoader).log =
        [refreshingLine, newKeyEvent "A"] ∧
      (⟨"A", some 2⟩ : jsonWebKey Nat) ∈ [⟨"A", some 2⟩, ⟨"A", some 1⟩] ∧
      (refreshKeys (providerWorld 200 ⟨[⟨"A", some 2⟩, ⟨"A", some 1⟩]⟩) breakerConfig 30
        (CircuitState.closed 0)
        ⟨discoveryUrl, (refreshKeys (providerWorld 200 ⟨[⟨"A", some 1⟩]⟩) breakerConfig 0
          (CircuitState.closed 0) freshLoader).cache⟩).log =
        [refreshingLine, rotationEvent "A", rotationEvent "A"] ∧
      LoadKey ⟨discoveryUrl,
        (refreshKeys (providerWorld 200 ⟨[⟨"A", some 2⟩, ⟨"A", some 1⟩]⟩) breakerConfig 30
          (CircuitState.closed 0)
          ⟨discoveryUrl, (refreshKeys (providerWorld 200 ⟨[⟨"A", some 1⟩]⟩) breakerConfig 0
            (CircuitState.closed 0) freshLoader).cache⟩).cache⟩ "A" = (some 1, none) := by
  decide

/-- C3, amended: let `M` and `M2` be different non-nil materials. If a cycle starts with `K`
absent and completes over a document that carries `K`, always with `M`, it logs exactly one
new-key line and no rotation line for `K`. If a later cycle starts from a cache that reads
under `K` what the first cycle left there and completes over a document that carries `K`,
always with `M2`, it logs exactly one rotation line for `K`, and `LoadKey K` afterwards
returns `M2` with a nil error. -/
theorem rotation_reported_once {Material : Type} [DecidableEq Material]
    (w1 w2 : World Material) (cfg : BreakerConfig) (now1 now2 : Nat) (st1 st2 : CircuitState)
    (kl1 kl2 : cachingOpenIdProviderLoader Material) (doc1 doc2 : jsonWebKeySet Material)
    (K : String) (M M2 : Material) (hne : M2 ≠ M)
    (habsent : kl1.keyCache.Get K = none)
    (hf1 : Fetched w1 cfg now1 st1 kl1 doc1)
    (hin1 : ⟨K, some M⟩ ∈ doc1.Keys)
    (hall1 : ∀ q ∈ doc1.Keys, q.KeyId = K → q.Key = some M)
    (hlater : kl2.keyCache.Get K = (refreshKeys w1 cfg now1 st1 kl1).cache.Get K)
    (hf2 : Fetched w2 cfg now2 st2 kl2 doc2)
    (hin2 : ⟨K, some M2⟩ ∈ doc2.Keys)
    (hall2 : ∀ q ∈ doc2.Keys, q.KeyId = K → q.Key = some M2) :
    (refreshKeys w1 cfg now1 st1 kl1).log.count (newKeyEvent K) = 1 ∧
      (refreshKeys w1 cfg now1 st1 kl1).log.count (rotationEvent K) = 0 ∧
      (refreshKeys w2 cfg now2 st2 kl2).log.count (rotationEvent K) = 1 ∧
      LoadKey ⟨kl2.url, (refreshKeys w2 cfg now2 st2 kl2).cache⟩ K = (some M2, none) := by
  obtain ⟨hc1, hl1, _⟩ := refreshKeys_of_Fetched w1 cfg now1 st1 kl1 doc1 hf1
  obtain ⟨hc2, hl2, _⟩ := refreshKeys_of_Fetched w2 cfg now2 st2 kl2 doc2 hf2
  obtain ⟨a1, a2, a3⟩ := refreshLoop_first_sight kl1.keyCache doc1.Keys K M habsent
    ⟨_, hin1, rfl⟩ hall1
  rw [hc1, a3] at hlater
  obtain ⟨b1, _, b3⟩ := refreshLoop_rotation kl2.keyCache doc2.Keys K M M2 hne hlater
    ⟨_, hin2, rfl⟩ hall2
  have e1 := count_refreshingLine_cons K (refreshLoop kl1.keyCache doc1.Keys).2
  have e2 := count_refreshingLine_cons K (refreshLoop kl2.keyCache doc2.Keys).2
  refine ⟨?_, ?_, ?_, ?_⟩
  · rw [hl1, e1.2]; exact a1
  · rw [hl1, e1.1]; exact a2
  · rw [hl2, e2.1]; exact b1
  · simp [LoadKey, hc2, b3]

theorem rotation_reported_once_witness :
    (refreshKeys (providerWorld 200 ⟨[⟨"A", some 1⟩]⟩) breakerConfig 0
        (CircuitState.closed 0) freshLoader).log.count (newKeyEvent "A") = 1 ∧
      (refreshKeys (providerWorld 200 ⟨[⟨"A", some 1⟩]⟩) breakerConfig 0
        (CircuitState.closed 0) freshLoader).log.count (rotationEvent "A") = 0 ∧
      (refreshKeys (providerWorld 200 ⟨[⟨"A", some 2⟩]⟩) breakerConfig 30
        (CircuitState.closed 0)
        ⟨discoveryUrl, (refreshKeys (providerWorld 200 ⟨[⟨"A", some 1⟩]⟩) breakerConfig 0
          (CircuitState.closed 0) freshLoader).cache⟩).log.count (rotationEvent "A") = 1 ∧
      LoadKey ⟨discoveryUrl,
        (refreshKeys (providerWorld 200 ⟨[⟨"A", some 2⟩]⟩) breakerConfig 30
          (CircuitState.closed 0)
          ⟨discoveryUrl, (refreshKeys (providerWorld 200 ⟨[⟨"A", some 1⟩]⟩) breakerConfig 0
            (CircuitState.closed 0) freshLoader).cache⟩).cache⟩ "A" = (some 2, none) :=
  rotation_reported_once (providerWorld 200 ⟨[⟨"A", some 1⟩]⟩)
    (providerWorld 200 ⟨[⟨"A", some 2⟩]⟩) breakerConfig 0 30 (CircuitState.closed 0)
    (CircuitState.closed 0) freshLoader
    ⟨discoveryUrl, (refreshKeys (providerWorld 200 ⟨[⟨"A", some 1⟩]⟩) breakerConfig 0
      (CircuitState.closed 0) freshLoader).cache⟩
    ⟨[⟨"A", some 1⟩]⟩ ⟨[⟨"A", some 2⟩]⟩ "A" 1 2 (by decide) (by decide)
    ⟨⟨jwksUrl⟩, ⟨200, "jwks"⟩, by decide, rfl, rfl⟩ (by simp) (by simp) rfl
    ⟨⟨jwksUrl⟩, ⟨200, "jwks"⟩, by decide, rfl, rfl⟩ (by simp) (by simp)

/-- C4: in a completed cycle, what the update loop logs for an entry of the document is
determined solely by the value cached under the entry's id when the loop reaches it (the
material of the last earlier entry of the document under that id, else what the cache read
before the cycle). The log of the cycle is the opening line followed by the reports of the
entries in document order; an entry whose previous value is absent contributes exactly one
new-key line; an entry whose previous value is present and deep-equal to its material
contributes nothing; and a cycle over a document that carries an id only with the material
already cached under it logs no rotation line for that id. The same holds of the loop body
taken alone, from any cache. -/
theorem refreshKey_report_by_previous {Material : Type} [DecidableEq Material]
    (w : World Material) (cfg : BreakerConfig) (now : Nat) (st : CircuitState)
    (kl : cachingOpenIdProviderLoader Material) (doc : jsonWebKeySet Material)
    (pre post : List (jsonWebKey Material)) (k : jsonWebKey Material)
    (hf : Fetched w cfg now st kl doc) (hdoc : doc.Keys = pre ++ k :: post) :
    (refreshLoop kl.keyCache pre).1.Get k.KeyId = previousValue kl.keyCache pre k.KeyId ∧
      (refreshKeys w cfg now st kl).log =
        refreshingLine :: (cycleReports kl.keyCache [] pre ++
          (entryReport (previousValue kl.keyCache pre k.KeyId) k ++
            cycleReports kl.keyCache (pre ++ [k]) post)) ∧
      (previousValue kl.keyCache pre k.KeyId = none →
        (refreshKeys w cfg now st kl).log =
          refreshingLine :: (cycleReports kl.keyCache [] pre ++
            (newKeyEvent k.KeyId :: cycleReports kl.keyCache (pre ++ [k]) post))) ∧
      (∀ o : Material, previousValue kl.keyCache pre k.KeyId = some o →
        deepEqual (some o) k.Key = true →
        (refreshKeys w cfg now st kl).log =
          refreshingLine :: (cycleReports kl.keyCache [] pre ++
            cycleReports kl.keyCache (pre ++ [k]) post)) ∧
      (kl.keyCache.Get k.KeyId = k.Key →
        (∀ q ∈ doc.Keys, q.KeyId = k.KeyId → q.Key = k.Key) →
        (refreshKeys w cfg now st kl).log.count (rotationEvent k.KeyId) = 0) ∧
      (∀ c : Cache Material,
        (∀ c2 : Cache Material, c2.Get k.KeyId = c.Get k.KeyId →
          (refreshKey c2 k).2 = (refreshKey c k).2) ∧
        (c.Get k.KeyId = none → (refreshKey c k).2 = [newKeyEvent k.KeyId]) ∧
        (∀ o : Material, c.Get k.KeyId = some o → deepEqual (some o) k.Key = true →
          (refreshKey c k).2 = [])) := by
  obtain ⟨_, hl, _⟩ := refreshKeys_of_Fetched w cfg now st kl doc hf
  have hlog : (refreshKeys w cfg now st kl).log =
      refreshingLine :: (cycleReports kl.keyCache [] pre ++
        (entryReport (previousValue kl.keyCache pre k.KeyId) k ++
          cycleReports kl.keyCache (pre ++ [k]) post)) := by
    have h0 := refreshLoop_log_cycleReports kl.keyCache [] doc.Keys
    rw [refreshLoop_nil] at h0
    simp only at h0
    rw [hl, h0, hdoc, cycleReports_append, List.nil_append]
    rfl
  refine ⟨refreshLoop_Get_previousValue kl.keyCache pre k.KeyId, hlog, ?_, ?_, ?_, ?_⟩
  · intro hnone
    rw [hlog, hnone]
    rfl
  · intro o hsome hd
    have he : some o = k.Key := by simpa [deepEqual] using hd
    rw [hlog, hsome]
    simp [entryReport, he]
  · intro hc hall
    rw [hl, (count_refreshingLine_cons k.KeyId _).1]
    exact (refreshLoop_unchanged kl.keyCache doc.Keys k.KeyId k.Key hc hall).1
  · intro c
    refine ⟨?_, refreshKey_log_absent c k, ?_⟩
    · intro c2 h
      rw [refreshKey_log_entryReport, refreshKey_log_entryReport, h]
    · intro o h hd
      have he : some o = k.Key := by simpa [deepEqual] using hd
      exact refreshKey_log_equal c k o h he.symm

theorem refreshKey_report_by_previous_witness :
    previousValue freshLoader.keyCache [⟨"A", some 1⟩] "B" = none ∧
      (refreshKeys (providerWorld 200 ⟨[⟨"A", some 1⟩, ⟨"B", some 2⟩, ⟨"A", some 1⟩]⟩)
          breakerConfig 0 (CircuitState.closed 0) freshLoader).log =
        [refreshingLine, newKeyEvent "A", newKeyEvent "B"] ∧
      previousValue freshLoader.keyCache [⟨"A", some 1⟩, ⟨"B", some 2⟩] "A" = some 1 ∧
      (refreshKeys (providerWorld 200 ⟨[⟨"A", some 1⟩, ⟨"B", some 2⟩, ⟨"A", some 1⟩]⟩)
          breakerConfig 0 (CircuitState.closed 0) freshLoader).log =
        refreshingLine ::
          (cycleReports freshLoader.keyCache [] [⟨"A", some 1⟩, ⟨"B", some 2⟩] ++
            cycleReports freshLoader.keyCache
              ([⟨"A", some 1⟩, ⟨"B", some 2⟩] ++ [⟨"A", some 1⟩]) []) ∧
      (refreshKeys (providerWorld 200 ⟨[⟨"A", some 1⟩]⟩) breakerConfig 30
        (CircuitState.closed 0) oneKeyLoader).log.count (rotationEvent "A") = 0 :=
  ⟨by decide,
    ((refreshKey_report_by_previous
      (providerWorld 200 ⟨[⟨"A", some 1⟩, ⟨"B", some 2⟩, ⟨"A", some 1⟩]⟩) breakerConfig 0
      (CircuitState.closed 0) freshLoader ⟨[⟨"A", some 1⟩, ⟨"B", some 2⟩, ⟨"A", some 1⟩]⟩
      [⟨"A", some 1⟩] [⟨"A", some 1⟩] ⟨"B", some 2⟩
      ⟨⟨jwksUrl⟩, ⟨200, "jwks"⟩, by decide, rfl, rfl⟩ rfl).2.2.1 (by decide)).trans
      (by decide),
    by decide,
    (refreshKey_report_by_previous
      (providerWorld 200 ⟨[⟨"A", some 1⟩, ⟨"B", some 2⟩, ⟨"A", some 1⟩]⟩) breakerConfig 0
      (CircuitState.closed 0) freshLoader ⟨[⟨"A", some 1⟩, ⟨"B", some 2⟩, ⟨"A", some 1⟩]⟩
      [⟨"A", some 1⟩, ⟨"B", some 2⟩] [] ⟨"A", some 1⟩
      ⟨⟨jwksUrl⟩, ⟨200, "jwks"⟩, by decide, rfl, rfl⟩ rfl).2.2.2.1 1 (by decide)
      (by decide),
    (refreshKey_report_by_previous
      (providerWorld 200 ⟨[⟨"A", some 1⟩]⟩) breakerConfig 30
      (CircuitState.closed 0) oneKeyLoader ⟨[⟨"A", some 1⟩]⟩
      [] [] ⟨"A", some 1⟩
      ⟨⟨jwksUrl⟩, ⟨200, "jwks"⟩, by decide, rfl, rfl⟩ rfl).2.2.2.2.1 (by decide) (by simp)⟩

/-- C5, as stated, fails when "cached" is read the way the code reads it, by a non-nil `Get`:
key `A` is cached with material 1, the cycle completes over a document that carries `A` with
nil material, and afterwards `Get` reads nil under `A` and `LoadKey` answers not-found. -/
theorem nil_entry_unsets_cached_key :
    oneKeyLoader.keyCache.Get "A" = some 1 ∧
      (LoadKey oneKeyLoader "A").2 = none ∧
      (refreshKeys (providerWorld 200 ⟨[⟨"A", none⟩]⟩) breakerConfig 0
        (CircuitState.closed 0) oneKeyLoader).ended = CycleEnd.completed ∧
      (refreshKeys (providerWorld 200 ⟨[⟨"A", none⟩]⟩) breakerConfig 0
        (CircuitState.closed 0) oneKeyLoader).cache.Get "A" = none ∧
      LoadKey ⟨discoveryUrl,
        (refreshKeys (providerWorld 200 ⟨[⟨"A", none⟩]⟩) breakerConfig 0
          (CircuitState.closed 0) oneKeyLoader).cache⟩ "A" =
        (none, some "Key 'A' not found") := by
  decide

/-- C5, amended: a refresh cycle never removes an id that its document does not carry with
nil material. Whatever the cycle does, an id under which `Get` read a key before it, and
whose entries in the fetched document, if any, all carry non-nil material, still reads a key
afterwards and `LoadKey` returns a nil error for it; every id that has an entry before the
cycle has one after it; and when the cycle completes over a document, every id that the
document does not carry reads exactly the same material, and has an entry or not, as
before. -/
theorem refreshKeys_never_removes {Material : Type} [DecidableEq Material]
    (w : World Material) (cfg : BreakerConfig) (now : Nat) (st : CircuitState)
    (kl : cachingOpenIdProviderLoader Material) (id : String)
    (hnil : ∀ doc : jsonWebKeySet Material, Fetched w cfg now st kl doc →
      ∀ q ∈ doc.Keys, q.KeyId = id → q.Key ≠ none) :
    (kl.keyCache.Get id ≠ none →
        (refreshKeys w cfg now st kl).cache.Get id ≠ none ∧
          (LoadKey ⟨kl.url, (refreshKeys w cfg now st kl).cache⟩ id).2 = none) ∧
      (kl.keyCache.Has id = true → (refreshKeys w cfg now st kl).cache.Has id = true) ∧
      (∀ doc : jsonWebKeySet Material, Fetched w cfg now st kl doc →
        (∀ q ∈ doc.Keys, q.KeyId ≠ id) →
        (refreshKeys w cfg now st kl).cache.Get id = kl.keyCache.Get id ∧
          (refreshKeys w cfg now st kl).cache.Has id = kl.keyCache.Has id) := by
  refine ⟨?_, ?_, ?_⟩
  · intro h
    have hget : (refreshKeys w cfg now st kl).cache.Get id ≠ none := by
      rcases refreshKeys_cache_cases w cfg now st kl with hsame | ⟨doc, hf⟩
      · rw [hsame.1]; exact h
      · rw [(refreshKeys_of_Fetched w cfg now st kl doc hf).1]
        exact refreshLoop_Get_stays kl.keyCache doc.Keys id h (hnil doc hf)
    refine ⟨hget, ?_⟩
    unfold LoadKey
    simp only
    cases hg : (refreshKeys w cfg now st kl).cache.Get id with
    | none => exact absurd hg hget
    | some m => rfl
  · intro h
    rcases refreshKeys_cache_cases w cfg now st kl with hsame | ⟨doc, hf⟩
    · rw [hsame.1]; exact h
    · rw [(refreshKeys_of_Fetched w cfg now st kl doc hf).1]
      exact refreshLoop_Has_mono kl.keyCache doc.Keys id h
  · intro doc hf hnot
    rw [(refreshKeys_of_Fetched w cfg now st kl doc hf).1]
    exact ⟨refreshLoop_Get_absent kl.keyCache doc.Keys id hnot,
      refreshLoop_Has_absent kl.keyCache doc.Keys id hnot⟩

theorem refreshKeys_never_removes_witness :
    warmLoader.keyCache.Get "Z" ≠ none ∧
      ((refreshKeys (providerWorld 200 ⟨[⟨"Z", some 7⟩, ⟨"A", some 1⟩]⟩) breakerConfig 0
          (CircuitState.closed 0) warmLoader).cache.Get "Z" ≠ none ∧
        (LoadKey ⟨discoveryUrl,
          (refreshKeys (providerWorld 200 ⟨[⟨"Z", some 7⟩, ⟨"A", some 1⟩]⟩) breakerConfig 0
            (CircuitState.closed 0) warmLoader).cache⟩ "Z").2 = none) ∧
      (refreshKeys (providerWorld 200 ⟨[⟨"A", some 1⟩]⟩) breakerConfig 0
        (CircuitState.closed 0) warmLoader).cache.Get "Z" = some 9 :=
  ⟨by decide,
    (refreshKeys_never_removes (providerWorld 200 ⟨[⟨"Z", some 7⟩, ⟨"A", some 1⟩]⟩)
      breakerConfig 0 (CircuitState.closed 0) warmLoader "Z"
      (fun doc hf q hq _ => by
        have e := Fetched_unique _ _ _ _ _ doc ⟨[⟨"Z", some 7⟩, ⟨"A", some 1⟩]⟩ hf
          ⟨⟨jwksUrl⟩, ⟨200, "jwks"⟩, by decide, rfl, rfl⟩
        subst e
        simp only [List.mem_cons, List.mem_singleton, List.not_mem_nil, or_false] at hq
        rcases hq with rfl | rfl <;> simp)).1 (by decide),
    ((refreshKeys_never_removes (providerWorld 200 ⟨[⟨"A", some 1⟩]⟩) breakerConfig 0
      (CircuitState.closed 0) warmLoader "Z"
      (fun doc hf q hq hid => by
        have e := Fetched_unique _ _ _ _ _ doc ⟨[⟨"A", some 1⟩]⟩ hf
          ⟨⟨jwksUrl⟩, ⟨200, "jwks"⟩, by decide, rfl, rfl⟩
        subst e
        simp only [List.mem_cons, List.mem_singleton, List.not_mem_nil, or_false] at hq
        subst hq
        simp)).2.2 ⟨[⟨"A", some 1⟩]⟩
      ⟨⟨jwksUrl⟩, ⟨200, "jwks"⟩, by decide, rfl, rfl⟩ (by decide)).1⟩

/-- C6: a cycle that aborts because `loadConfiguration` returns an error, because the GET of
the key-set endpoint fails, or because the key-set body does not parse, leaves the cache
exactly as it was and does not reach the update loop. -/
theorem refreshKeys_abort_keeps_cache {Material : Type} [DecidableEq Material]
    (w : World Material) (cfg : BreakerConfig) (now : Nat) (st : CircuitState)
    (kl : cachingOpenIdProviderLoader Material)
    (h : (∃ oc e, (loadConfiguration w cfg now st kl).2 = GoResult.returned (oc, some e)) ∨
      (∃ c e, (loadConfiguration w cfg now st kl).2 = GoResult.returned (some c, none) ∧
        w.httpGet c.JwksUri = Except.error e) ∨
      (∃ c resp e, (loadConfiguration w cfg now st kl).2 = GoResult.returned (some c, none) ∧
        w.httpGet c.JwksUri = Except.ok resp ∧ w.unmarshalJwks resp.body = Except.error e)) :
    (refreshKeys w cfg now st kl).cache = kl.keyCache ∧
      (refreshKeys w cfg now st kl).ended ≠ CycleEnd.completed := by
  rcases hl : loadConfiguration w cfg now st kl with ⟨s1, r⟩
  rw [hl] at h
  simp only at h
  rcases h with ⟨oc, e, h1⟩ | ⟨c, e, h1, h2⟩ | ⟨c, resp, e, h1, h2, h3⟩
  · subst h1
    simp [refreshKeys, hl]
  · subst h1
    simp [refreshKeys, hl, h2]
  · subst h1
    simp [refreshKeys, hl, h2, h3]

theorem refreshKeys_abort_keeps_cache_witness :
    ((refreshKeys unreachableWorld breakerConfig 3 (CircuitState.opened 5) warmLoader).cache =
        warmLoader.keyCache ∧
      (refreshKeys unreachableWorld breakerConfig 3 (CircuitState.opened 5) warmLoader).ended ≠
        CycleEnd.completed) ∧
    ((refreshKeys jwksDownWorld breakerConfig 0 (CircuitState.closed 0) warmLoader).cache =
        warmLoader.keyCache ∧
      (refreshKeys jwksDownWorld breakerConfig 0 (CircuitState.closed 0) warmLoader).ended ≠
        CycleEnd.completed) ∧
    ((refreshKeys jwksGarbledWorld breakerConfig 0 (CircuitState.closed 0) warmLoader).cache =
        warmLoader.keyCache ∧
      (refreshKeys jwksGarbledWorld breakerConfig 0 (CircuitState.closed 0) warmLoader).ended ≠
        CycleEnd.completed) :=
  ⟨refreshKeys_abort_keeps_cache unreachableWorld breakerConfig 3 (CircuitState.opened 5)
      warmLoader (Or.inl ⟨none, circuitOpenMsg, by decide⟩),
    refreshKeys_abort_keeps_cache jwksDownWorld breakerConfig 0 (CircuitState.closed 0)
      warmLoader (Or.inr (Or.inl ⟨⟨jwksUrl⟩, "connection refused", by decide, rfl⟩)),
    refreshKeys_abort_keeps_cache jwksGarbledWorld breakerConfig 0 (CircuitState.closed 0)
      warmLoader (Or.inr (Or.inr ⟨⟨jwksUrl⟩, ⟨200, "<html>"⟩,
        "invalid character looking for beginning of value", by decide, rfl, rfl⟩))⟩

/-- C7: the code at the failing input. The discovery URL cannot be reached and the breaker is
closed: `loadConfiguration` does not return an error value, it panics on the nil response,
and the cycle of `refreshKeys` ends in that panic without logging the failure. -/
theorem loadConfiguration_network_error_panics :
    unreachableWorld.httpGet freshLoader.url = Except.error "connection refused" ∧
      loadConfiguration unreachableWorld breakerConfig 0 (CircuitState.closed 0) freshLoader =
        (CircuitState.closed 0, GoResult.panicked nilDeref) ∧
      (refreshKeys unreachableWorld breakerConfig 0 (CircuitState.closed 0) freshLoader).ended =
        CycleEnd.panicked ∧
      (refreshKeys unreachableWorld breakerConfig 0 (CircuitState.closed 0) freshLoader).log =
        [refreshingLine] := by
  refine ⟨rfl, ?_, ?_, ?_⟩ <;> decide

/-- C8: the code at the failing input. With the discovery URL unreachable, the function
wrapped by the breaker stores the GET error in the captured variable and returns nil; five
calls in a row, threshold two, leave the breaker closed with no failure counted, and each of
the five is let through to the network. -/
theorem breaker_never_sees_failure :
    loadConfigurationRun unreachableWorld discoveryUrl ⟨none, none⟩ =
        (⟨none, some "connection refused"⟩, none) ∧
      loadConfigurationRepeat unreachableWorld breakerConfig freshLoader 5 0
          (CircuitState.closed 0) =
        (CircuitState.closed 0, List.replicate 5 (GoResult.panicked nilDeref)) := by
  constructor <;> decide

/-- C9, as stated, fails: the discovery GET answers with status 500 and a body that parses;
`loadConfiguration` returns the parsed configuration and a nil error. -/
theorem status_500_returns_configuration :
    (providerWorld 500 ⟨[]⟩).httpGet freshLoader.url = Except.ok ⟨500, "discovery"⟩ ∧
      loadConfiguration (providerWorld 500 ⟨[]⟩) breakerConfig 0 (CircuitState.closed 0)
          freshLoader =
        (CircuitState.closed 0, GoResult.returned (some ⟨jwksUrl⟩, none)) := by
  refine ⟨rfl, ?_⟩
  decide

/-- C9, amended: for every discovery response that the breaker lets through, whatever its
HTTP status, `loadConfiguration` is decided by the body alone: it returns a non-nil error and
no configuration when the body fails to parse, and the parsed configuration with a nil error
when the body parses. -/
theorem loadConfiguration_ignores_status {Material : Type} (w : World Material)
    (cfg : BreakerConfig) (now : Nat) (st : CircuitState)
    (kl : cachingOpenIdProviderLoader Material) (status : Nat) (body : String)
    (hst : letsThrough now st = true) (h : w.httpGet kl.url = Except.ok ⟨status, body⟩) :
    (loadConfiguration w cfg now st kl).2 =
      match w.unmarshalConfiguration body with
      | Except.error e => GoResult.returned (none, some e)
      | Except.ok c => GoResult.returned (some c, none) := by
  rw [loadConfiguration_response w cfg now st kl ⟨status, body⟩ hst h]

theorem loadConfiguration_ignores_status_witness :
    (providerWorld 404 ⟨[]⟩).httpGet freshLoader.url = Except.ok ⟨404, "discovery"⟩ ∧
      (loadConfiguration (providerWorld 404 ⟨[]⟩) breakerConfig 0 (CircuitState.closed 0)
        freshLoader).2 = GoResult.returned (some ⟨jwksUrl⟩, none) ∧
      (loadConfiguration (providerWorld 404 ⟨[]⟩) breakerConfig 0 (CircuitState.closed 0)
        ⟨jwksUrl, NewCache⟩).2 =
        GoResult.returned (none, some "unexpected end of JSON input") :=
  ⟨rfl,
    (loadConfiguration_ignores_status (providerWorld 404 ⟨[]⟩) breakerConfig 0
      (CircuitState.closed 0) freshLoader 404 "discovery" (by decide) rfl).trans rfl,
    (loadConfiguration_ignores_status (providerWorld 404 ⟨[]⟩) breakerConfig 0
      (CircuitState.closed 0) ⟨jwksUrl, NewCache⟩ 200 "jwks" (by decide) rfl).trans rfl⟩

/-- C10: `LoadKey` returns a nil error exactly when the key it returns is non-nil. So an id
that has an entry whose material is nil is answered with the not-found error, and a completed
cycle over a document that carries the id logs a new-key line for it again. -/
theorem LoadKey_nil_sentinel {Material : Type} [DecidableEq Material]
    (kl : cachingOpenIdProviderLoader Material) (id : String) :
    ((LoadKey kl id).2 = none ↔ (LoadKey kl id).1 ≠ none) ∧
      (kl.keyCache.Has id = true → kl.keyCache.Get id = none →
        LoadKey kl id = (none, some ("Key '" ++ id ++ "' not found"))) ∧
      (∀ (w : World Material) (cfg : BreakerConfig) (now : Nat) (st : CircuitState)
          (doc : jsonWebKeySet Material),
        kl.keyCache.Has id = true → kl.keyCache.Get id = none →
        Fetched w cfg now st kl doc → (∃ q ∈ doc.Keys, q.KeyId = id) →
        newKeyEvent id ∈ (refreshKeys w cfg now st kl).log) := by
  refine ⟨?_, ?_, ?_⟩
  · unfold LoadKey
    cases kl.keyCache.Get id <;> simp
  · intro _ h
    simp [LoadKey, h]
  · intro w cfg now st doc _ hnone hf hex
    rw [(refreshKeys_of_Fetched w cfg now st kl doc hf).2.1]
    exact List.mem_cons_of_mem _ (refreshLoop_nil_reported kl.keyCache doc.Keys id hnone hex)

theorem LoadKey_nil_sentinel_witness :
    (refreshKeys (providerWorld 200 ⟨[⟨"A", none⟩]⟩) breakerConfig 0
        (CircuitState.closed 0) freshLoader).cache = nilLoader.keyCache ∧
      LoadKey nilLoader "A" = (none, some "Key 'A' not found") ∧
      newKeyEvent "A" ∈
        (refreshKeys (providerWorld 200 ⟨[⟨"A", some 1⟩]⟩) breakerConfig 30
          (CircuitState.closed 0) nilLoader).log :=
  ⟨by decide,
    (LoadKey_nil_sentinel nilLoader "A").2.1 (by decide) (by decide),
    (LoadKey_nil_sentinel nilLoader "A").2.2 (providerWorld 200 ⟨[⟨"A", some 1⟩]⟩)
      breakerConfig 30 (CircuitState.closed 0) ⟨[⟨"A", some 1⟩]⟩ (by decide) (by decide)
      ⟨⟨jwksUrl⟩, ⟨200, "jwks"⟩, by decide, rfl, rfl⟩ ⟨⟨"A", some 1⟩, by simp, rfl⟩⟩

end Claims

end keys
